import Mathlib

/-! Shallow embedding of the core of the `lighting_controller` repository
(`src/utility.rs`, `src/colors.rs`, `src/animations/mod.rs`) together with
proofs of the specification claims about it.

Machine-integer conventions: Rust `usize`/`u32`/`u64`/`u128` values are
embedded as `Nat`; the explicitly wrapping operations of the source
(`wrapping_add`, the `as u32`/`as u16`/`as u64` narrowing casts) are embedded
as reduction modulo the corresponding power of two.  The `i32` arithmetic
inside `color_lerp` is embedded as exact `Int` arithmetic (the source uses
plain checked arithmetic there), with Rust's truncating signed division `/`
embedded as `Int.tdiv` and the defined wrapping cast `as u8` embedded as the
low byte, `Int.emod _ 256`. -/

/-- One 8-bit RGBA color (the `rgb::RGBA8` type used by `src/colors.rs`);
each channel holds a byte value. -/
structure RGBA8 where
  r : Nat
  g : Nat
  b : Nat
  a : Nat
  deriving DecidableEq, Repr

/-- All four channels fit in a byte, as the Rust `u8` fields guarantee. -/
def RGBA8.Valid (c : RGBA8) : Prop :=
  c.r < 256 ∧ c.g < 256 ∧ c.b < 256 ∧ c.a < 256

/-- One 8-bit RGB color (the `rgb::RGB8` type used for the pixel segment in
`src/animations/mod.rs`). -/
structure RGB8 where
  r : Nat
  g : Nat
  b : Nat
  deriving DecidableEq, Repr

/-- `Progression` from `src/utility.rs`: a cyclic position counter with a
direction flag.  `current` is the raw stored counter (private in the
source), `total` the cycle length, `is_forward` the direction flag. -/
structure Progression where
  current : Nat
  total : Nat
  is_forward : Bool
  deriving DecidableEq, Repr

/-- `Progression::new(total)` from `src/utility.rs`. -/
def Progression.new (total : Nat) : Progression :=
  { current := 0, total := total, is_forward := true }

/-- `Progression::is_mono` from `src/utility.rs`: `self.total <= 1`. -/
def Progression.is_mono (p : Progression) : Prop :=
  p.total ≤ 1

instance (p : Progression) : Decidable p.is_mono :=
  inferInstanceAs (Decidable (p.total ≤ 1))

/-- `Progression::reverse_direction` from `src/utility.rs`. -/
def Progression.reverse_direction (p : Progression) : Progression :=
  { p with is_forward := !p.is_forward }

/-- `Progression::get_current` from `src/utility.rs`. -/
def Progression.get_current (p : Progression) : Nat :=
  if p.is_mono then 0
  else
    match p.is_forward with
    | true => p.current
    | false => p.total - 1 - p.current

/-- `Progression::set_current` from `src/utility.rs`. -/
def Progression.set_current (p : Progression) (value : Nat) : Progression :=
  if p.is_mono then p
  else { p with current := value % p.total }

/-- `Progression::up_one` from `src/utility.rs`: `(current + 1) % total`
behind the mono guard. -/
def Progression.up_one (p : Progression) : Nat :=
  if p.is_mono then 0
  else (p.current + 1) % p.total

/-- `Progression::down_one` from `src/utility.rs`:
`(current + total - 1) % total` behind the mono guard. -/
def Progression.down_one (p : Progression) : Nat :=
  if p.is_mono then 0
  else (p.current + p.total - 1) % p.total

/-- `Progression::peek_next` from `src/utility.rs`. -/
def Progression.peek_next (p : Progression) : Nat :=
  p.up_one

/-- `Progression::peek_prev` from `src/utility.rs`. -/
def Progression.peek_prev (p : Progression) : Nat :=
  p.down_one

/-- `Progression::increment` from `src/utility.rs`. -/
def Progression.increment (p : Progression) : Progression :=
  if p.is_mono then p
  else { p with current := p.peek_next }

/-- `Progression::decrement` from `src/utility.rs`. -/
def Progression.decrement (p : Progression) : Progression :=
  if p.is_mono then p
  else { p with current := p.peek_prev }

/-- `Progression::checked_increment` from `src/utility.rs`: increments, then
reports whether the new raw counter landed on 0 (the wrap). -/
def Progression.checked_increment (p : Progression) : Progression × Bool :=
  if p.is_mono then (p, false)
  else
    let q := p.increment
    (q, q.current == 0)

/-- `Progression::checked_decrement` from `src/utility.rs`: decrements, then
reports whether the new raw counter landed on `total - 1` (the wrap). -/
def Progression.checked_decrement (p : Progression) : Progression × Bool :=
  if p.is_mono then (p, false)
  else
    let q := p.decrement
    (q, q.current == p.total - 1)

/-- `Progression::reset` from `src/utility.rs`. -/
def Progression.reset (p : Progression) : Progression :=
  { p with current := 0 }

/-- Calling `increment()` a number of times in sequence (iteration of the
source operation, used to state the cycle-closure claim). -/
def incrementN : Progression → Nat → Progression
  | p, 0 => p
  | p, n + 1 => incrementN p.increment n

/-- The number of `true` reports among a sequence of `checked_increment()`
calls (iteration of the source operation, used to state the
exactly-one-wrap claim). -/
def checkedCount : Progression → Nat → Nat
  | _, 0 => 0
  | p, n + 1 =>
    (if (p.checked_increment).2 then 1 else 0) + checkedCount (p.checked_increment).1 n

/-- `Direction` from `src/animations/mod.rs`. -/
inductive Direction where
  | Positive
  | Stopped
  | Negative
  deriving DecidableEq, Repr

/-- `MAX_OFFSET` from `src/animations/mod.rs`: `u16::MAX`. -/
def MAX_OFFSET : Nat := 65535

/-- `shift_offset` from `src/utility.rs`.  The `usize` arithmetic is exact
(`Nat`); the final `as u16` narrowing cast is reduction modulo `2 ^ 16`. -/
def shift_offset (starting_offset : Nat) (frames : Progression) (direction : Direction) : Nat :=
  if frames.total = 0 then starting_offset
  else
    let max_offset := MAX_OFFSET
    let offset_shift :=
      match direction with
      | Direction.Positive => max_offset * frames.get_current / frames.total
      | Direction.Negative => max_offset * (frames.total - frames.get_current) / frames.total
      | Direction.Stopped => 0
    (starting_offset + offset_shift) % 2 ^ 16

/-- `shift_offset` as claim C5 words it: `start` unchanged when
`frames.total == 0`; otherwise `start` plus a delta over the full 16-bit
offset range (`65535 * current / total` for Positive, counting down from the
full range for Negative, zero for Stopped), the sum truncated into the
16-bit range. -/
def shift_offset_claim (start : Nat) (frames : Progression) (direction : Direction) : Nat :=
  if frames.total = 0 then start
  else
    (start +
        match direction with
        | Direction.Positive => 65535 * frames.get_current / frames.total
        | Direction.Negative => 65535 * (frames.total - frames.get_current) / frames.total
        | Direction.Stopped => 0) %
      65536

/-- `WY_CONST_0` from `gen_u64` in `src/utility.rs`. -/
def WY_CONST_0 : Nat := 0x2d358dccaa6c78a5

/-- `WY_CONST_1` from `gen_u64` in `src/utility.rs`. -/
def WY_CONST_1 : Nat := 0x8bb84b93962eacc9

/-- `gen_u64` from `src/utility.rs`, in state-passing form: the argument is
the 32-bit value held by the `RNG` atomic, the result is the pair of the new
stored 32-bit state (`s as u32`) and the 64-bit output
`(t as u64) ^ ((t >> 32) as u64)`. -/
def gen_u64 (state : Nat) : Nat × Nat :=
  let rng := state % 2 ^ 32
  let s := (rng + WY_CONST_0) % 2 ^ 64
  let stored := s % 2 ^ 32
  let t := (s * Nat.xor s WY_CONST_1) % 2 ^ 128
  let output := Nat.xor (t % 2 ^ 64) (t / 2 ^ 32 % 2 ^ 64)
  (stored, output)

/-- `get_random_offset` from `src/utility.rs`: one draw, keeping the low
16 bits of the output (`gen_u64() as u16`), in state-passing form. -/
def get_random_offset (state : Nat) : Nat × Nat :=
  let r := gen_u64 state
  (r.1, r.2 % 2 ^ 16)

/-- One draw exactly as claim C3 words it: `new_state = state + C0`
(wrapping add in the 64-bit domain), `mix = widen(new_state) *
widen(new_state xor C1)` in the doubled-width (128-bit) domain, output
`narrow(mix) xor narrow(mix >> 64)` where 64 is half the doubled width, and
the stored state is `new_state` narrowed back to 32 bits. -/
def claim_draw_shift64 (state : Nat) : Nat × Nat :=
  let new_state := (state % 2 ^ 32 + WY_CONST_0) % 2 ^ 64
  let mix := (new_state * Nat.xor new_state WY_CONST_1) % 2 ^ 128
  (new_state % 2 ^ 32, Nat.xor (mix % 2 ^ 64) (mix / 2 ^ 64 % 2 ^ 64))

/-- One draw as the amended claim words it: identical to
`claim_draw_shift64` except that the mixed product is shifted right by
32 bits (half the 64-bit narrow width) before the final xor, as the source
does. -/
def claim_draw_shift32 (state : Nat) : Nat × Nat :=
  let new_state := (state % 2 ^ 32 + WY_CONST_0) % 2 ^ 64
  let mix := (new_state * Nat.xor new_state WY_CONST_1) % 2 ^ 128
  (new_state % 2 ^ 32, Nat.xor (mix % 2 ^ 64) (mix / 2 ^ 32 % 2 ^ 64))

/-- The `as u8` narrowing cast applied to an `i32` lerp result in
`src/colors.rs`: keep the low 8 bits. -/
def rust_cast_u8 (x : Int) : Nat :=
  (x % 256).toNat

/-- The per-channel closure inside `color_lerp` in `src/colors.rs`, before
its final `as u8` cast: `(factor - in_min) * (end - start) / (in_max -
in_min) + start` with Rust's truncating signed division. -/
def lerp_channel (factor in_min in_max : Int) (s e : Nat) : Int :=
  Int.tdiv ((factor - in_min) * ((e : Int) - (s : Int))) (in_max - in_min) + (s : Int)

/-- `color_lerp` from `src/colors.rs`.  The source initialises
`mid_color = (0, 0, 0, 255)` and then overwrites all four channels with the
lerp closure; the record below is that net result. -/
def color_lerp (factor in_min in_max : Int) (start_color end_color : RGBA8) : RGBA8 :=
  let lerp := fun (s e : Nat) => rust_cast_u8 (lerp_channel factor in_min in_max s e)
  { r := lerp start_color.r end_color.r
    g := lerp start_color.g end_color.g
    b := lerp start_color.b end_color.b
    a := lerp start_color.a end_color.a }

/-- `ManipulatableColor::lerp_with` for `RGBA8` from `src/colors.rs`:
`color_lerp(factor.get_current(), 0, factor.total, self, to_color)`. -/
def RGBA8.lerp_with (c to_color : RGBA8) (factor : Progression) : RGBA8 :=
  color_lerp (factor.get_current : Int) 0 (factor.total : Int) c to_color

/-- `ManipulatableColor::set_color` for `RGBA8` from `src/colors.rs`:
copies the `r`, `g`, `b` channels of `c` into the target. -/
def RGBA8.set_color (tgt c : RGBA8) : RGBA8 :=
  { tgt with r := c.r, g := c.g, b := c.b }

/-- `RainbowDir` used by `ReversibleRainbow` in `src/utility.rs`. -/
inductive RainbowDir where
  | Forward
  | Backward
  deriving DecidableEq, Repr

/-- `ReversibleRainbow` from `src/utility.rs`: a direction-aware view over a
borrowed color sequence. -/
structure ReversibleRainbow where
  backer : List RGBA8
  rainbow_dir : RainbowDir
  deriving DecidableEq, Repr

/-- The `Index` implementation of `ReversibleRainbow` in `src/utility.rs`:
`backer[index]` when Forward, `backer[len - 1 - index]` when Backward.  The
Rust indexing faults out of bounds; the embedding totalises it with a
default color (no claim here depends on the out-of-bounds case). -/
def ReversibleRainbow.index (r : ReversibleRainbow) (i : Nat) : RGBA8 :=
  match r.rainbow_dir with
  | RainbowDir.Forward => r.backer.getD i ⟨0, 0, 0, 0⟩
  | RainbowDir.Backward => r.backer.getD (r.backer.length - 1 - i) ⟨0, 0, 0, 0⟩

/-- `StatefulRainbow` from `src/utility.rs`: a reversible rainbow paired
with a `Progression` cursor over its positions. -/
structure StatefulRainbow where
  backer : ReversibleRainbow
  position : Progression
  deriving DecidableEq, Repr

/-- `StatefulRainbow::current_color` from `src/utility.rs`. -/
def StatefulRainbow.current_color (s : StatefulRainbow) : RGBA8 :=
  s.backer.index s.position.get_current

/-- `StatefulRainbow::peek_next_color` from `src/utility.rs`. -/
def StatefulRainbow.peek_next_color (s : StatefulRainbow) : RGBA8 :=
  s.backer.index s.position.peek_next

/-- `FadeRainbow::calculate_fade_color` from `src/utility.rs`, as a function
of the two components the trait methods `rainbow()` and `frames()` return:
the current rainbow color, returned as-is when `frames.total == 0` and
otherwise blended toward the next rainbow color with `frames` as factor. -/
def calculate_fade_color (rainbow : StatefulRainbow) (frames : Progression) : RGBA8 :=
  let current_color := rainbow.current_color
  if frames.total = 0 then current_color
  else current_color.lerp_with rainbow.peek_next_color frames

/-- `Animation` from `src/animations/mod.rs`.  The background, foreground
and trigger modules are external to the core (only their protocol with the
orchestrator is in scope), so the layer state types and their per-frame
`update` functions are parameters here; the fields and the pass order are
those of the source struct and of `Animation::update`. -/
structure Animation (β φ τ : Type) where
  translation_array : List Nat
  segment : List RGB8
  fg_state : φ
  bg_state : β
  triggers : τ
  bg_update : β → List RGB8 → β × List RGB8
  fg_update : φ → List RGB8 → φ × List RGB8
  tr_update : τ → List RGB8 → τ × List RGB8

/-- `Animation::update` from `src/animations/mod.rs`: exactly three passes
over the shared segment, background first, then foreground, then the
trigger collection. -/
def Animation.update {β φ τ : Type} (a : Animation β φ τ) : Animation β φ τ :=
  let b := a.bg_update a.bg_state a.segment
  let f := a.fg_update a.fg_state b.2
  let t := a.tr_update a.triggers f.2
  { a with bg_state := b.1, fg_state := f.1, triggers := t.1, segment := t.2 }

/-- A one-pixel animation whose background paints red, whose foreground
paints blue and whose trigger pass leaves the segment alone; concrete
instance for the layer-order witness. -/
def animNoTrigger : Animation Unit Unit Unit :=
  { translation_array := [0]
    segment := [⟨0, 0, 0⟩]
    fg_state := ()
    bg_state := ()
    triggers := ()
    bg_update := fun s _ => (s, [⟨255, 0, 0⟩])
    fg_update := fun s _ => (s, [⟨0, 0, 255⟩])
    tr_update := fun s seg => (s, seg) }

/-- The same animation after a trigger painting pixel 0 green has been
added; concrete instance for the layer-order witness. -/
def animWithTrigger : Animation Unit Unit Unit :=
  { animNoTrigger with tr_update := fun s _ => (s, [⟨0, 255, 0⟩]) }

/-- A concrete two-color forward stateful rainbow; input for the fade
witness. -/
def sampleRainbow : StatefulRainbow :=
  { backer := { backer := [⟨10, 20, 30, 40⟩, ⟨50, 60, 70, 80⟩], rainbow_dir := RainbowDir.Forward }
    position := Progression.new 2 }

/-- Incrementing a non-mono progression bumps the raw counter by one
modulo `total`. -/
theorem Progression.increment_eq (p : Progression) (h2 : 2 ≤ p.total) :
    p.increment = { p with current := (p.current + 1) % p.total } := by
  have hm : ¬ p.is_mono := by
    simp only [Progression.is_mono]
    omega
  simp [Progression.increment, Progression.peek_next, Progression.up_one, hm]

/-- The state component of `checked_increment` is `increment`, and the flag
reports whether the incremented raw counter is zero. -/
theorem Progression.checked_increment_eq (p : Progression) (h2 : 2 ≤ p.total) :
    p.checked_increment = (p.increment, ((p.current + 1) % p.total == 0)) := by
  have hm : ¬ p.is_mono := by
    simp only [Progression.is_mono]
    omega
  simp [Progression.checked_increment, hm, Progression.increment_eq p h2]

/-- Closed form of iterated `increment`: after `n` calls the raw counter is
`(current + n) % total`, nothing else moves. -/
theorem incrementN_eq (n : Nat) :
    ∀ p : Progression, 2 ≤ p.total → p.current < p.total →
      incrementN p n = { p with current := (p.current + n) % p.total } := by
  induction n with
  | zero =>
    intro p h2 hc
    simp [incrementN, Nat.mod_eq_of_lt hc]
  | succ n ih =>
    intro p h2 hc
    have hstep : p.increment = { p with current := (p.current + 1) % p.total } :=
      Progression.increment_eq p h2
    have ht : 0 < p.total := by omega
    have hc' : (p.current + 1) % p.total < p.total := Nat.mod_lt _ ht
    have := ih { p with current := (p.current + 1) % p.total } h2 hc'
    simp only [incrementN, hstep, this]
    congr 1
    rw [Nat.mod_add_mod]
    congr 1
    omega

/-- Closed form of the wrap count: starting below `total`, out of `n`
consecutive `checked_increment` calls exactly `(current + n) / total` report
a wrap. -/
theorem checkedCount_eq (n : Nat) :
    ∀ p : Progression, 2 ≤ p.total → p.current < p.total →
      checkedCount p n = (p.current + n) / p.total := by
  induction n with
  | zero =>
    intro p h2 hc
    simp [checkedCount, Nat.div_eq_of_lt hc]
  | succ n ih =>
    intro p h2 hc
    have ht : 0 < p.total := by omega
    have hc' : (p.current + 1) % p.total < p.total := Nat.mod_lt _ ht
    have hrec : checkedCount { p with current := (p.current + 1) % p.total } n
        = ((p.current + 1) % p.total + n) / p.total := by
      simpa using ih { p with current := (p.current + 1) % p.total } h2 hc'
    have hunfold : checkedCount p (n + 1)
        = (if (p.current + 1) % p.total = 0 then 1 else 0)
            + ((p.current + 1) % p.total + n) / p.total := by
      simp only [checkedCount, Progression.checked_increment_eq p h2,
        Progression.increment_eq p h2]
      rw [hrec]
      congr 1
      by_cases hz : (p.current + 1) % p.total = 0 <;> simp [hz]
    rw [hunfold]
    by_cases hz : (p.current + 1) % p.total = 0
    · have heq : p.current + 1 = p.total := by
        rcases eq_or_lt_of_le (show p.current + 1 ≤ p.total from hc) with heq | hlt
        · exact heq
        · rw [Nat.mod_eq_of_lt hlt] at hz
          omega
      have hsum : p.current + (n + 1) = n + p.total := by omega
      rw [if_pos hz, hz, hsum, Nat.zero_add, Nat.add_div_right _ ht]
      omega
    · have hlt : p.current + 1 < p.total := by
        rcases eq_or_lt_of_le (show p.current + 1 ≤ p.total from hc) with heq | hlt
        · rw [heq, Nat.mod_self] at hz
          omega
        · exact hlt
      have hsum : p.current + 1 + n = p.current + (n + 1) := by omega
      rw [if_neg hz, Nat.mod_eq_of_lt hlt, hsum, Nat.zero_add]

/-- Claim C1: for a mono progression (`total` 0 or 1), `get_current()` is 0
and `set_current`, `increment`, `decrement`, `checked_increment`,
`checked_decrement` leave the state unchanged (the checked variants report
`false`); every one of these operations is a total function, so none
faults. -/
theorem mono_progression_fixed (p : Progression) (v : Nat) (h : p.total ≤ 1) :
    p.get_current = 0 ∧ p.set_current v = p ∧ p.increment = p ∧ p.decrement = p ∧
      p.checked_increment = (p, false) ∧ p.checked_decrement = (p, false) := by
  have hm : p.is_mono := h
  refine ⟨?_, ?_, ?_, ?_, ?_, ?_⟩ <;>
    simp [Progression.get_current, Progression.set_current, Progression.increment,
      Progression.decrement, Progression.checked_increment, Progression.checked_decrement, hm]

/-- Witness for the mono-progression claim at `total = 1`, `current = 0`,
`v = 5`. -/
theorem mono_progression_fixed_witness :
    (Progression.mk 0 1 true).get_current = 0 ∧
      (Progression.mk 0 1 true).set_current 5 = Progression.mk 0 1 true ∧
      (Progression.mk 0 1 true).increment = Progression.mk 0 1 true ∧
      (Progression.mk 0 1 true).decrement = Progression.mk 0 1 true ∧
      (Progression.mk 0 1 true).checked_increment = (Progression.mk 0 1 true, false) ∧
      (Progression.mk 0 1 true).checked_decrement = (Progression.mk 0 1 true, false) :=
  mono_progression_fixed (Progression.mk 0 1 true) 5 (by decide)

/-- Claim C4: for `total >= 2` and a raw counter inside the cycle, `total`
consecutive `increment()` calls bring `get_current()` back to its original
value, and among `total` consecutive `checked_increment()` calls exactly one
reports the wrap. -/
theorem increment_cycle_closes (p : Progression) (h2 : 2 ≤ p.total)
    (hc : p.current < p.total) :
    (incrementN p p.total).get_current = p.get_current ∧ checkedCount p p.total = 1 := by
  constructor
  · rw [incrementN_eq p.total p h2 hc]
    have : (p.current + p.total) % p.total = p.current := by
      rw [Nat.add_mod_right]
      exact Nat.mod_eq_of_lt hc
    rw [this]
  · rw [checkedCount_eq p.total p h2 hc]
    rw [Nat.add_div_right _ (by omega : 0 < p.total)]
    rw [Nat.div_eq_of_lt hc]

/-- Witness for the cycle-closure claim at `current = 1`, `total = 3`,
forward. -/
theorem increment_cycle_closes_witness :
    (incrementN (Progression.mk 1 3 true) (Progression.mk 1 3 true).total).get_current
        = (Progression.mk 1 3 true).get_current ∧
      checkedCount (Progression.mk 1 3 true) (Progression.mk 1 3 true).total = 1 :=
  increment_cycle_closes (Progression.mk 1 3 true) (by decide) (by decide)

/-- Counterexample to claim C8 as stated: for the reachable backward
progression with raw counter 1 and total 4 (`new(4)` then `set_current(1)`
then a first `reverse_direction()`), a further `reverse_direction()`
followed by `get_current()` yields the raw counter 1 itself, not
`total - 1 - 1 = 2`. -/
theorem reverse_direction_backward_cex :
    ¬ ((Progression.mk 1 4 false).reverse_direction.get_current
        = (Progression.mk 1 4 false).total - 1 - (Progression.mk 1 4 false).current) := by
  decide

/-- Claim C8 as amended: for a forward progression with `total >= 2` and raw
counter strictly inside the cycle, `reverse_direction()` flips only
`is_forward` (raw counter and total untouched), after which `get_current()`
yields `total - 1 - current`, and a subsequent `increment()` moves the raw
counter one step up exactly as it would have before the reversal. -/
theorem reverse_direction_view_flip (p : Progression) (h2 : 2 ≤ p.total)
    (h0 : 0 < p.current) (h1 : p.current < p.total - 1) (hf : p.is_forward = true) :
    p.reverse_direction.current = p.current ∧
      p.reverse_direction.total = p.total ∧
      p.reverse_direction.is_forward = !p.is_forward ∧
      p.reverse_direction.get_current = p.total - 1 - p.current ∧
      p.reverse_direction.increment.current = p.increment.current ∧
      p.increment.current = p.current + 1 := by
  have hm : ¬ p.is_mono := by
    simp only [Progression.is_mono]
    omega
  refine ⟨rfl, rfl, rfl, ?_, ?_, ?_⟩
  · simp [Progression.reverse_direction, Progression.get_current, Progression.is_mono, hf,
      show ¬ p.total ≤ 1 by omega]
  · simp [Progression.reverse_direction, Progression.increment, Progression.peek_next,
      Progression.up_one, Progression.is_mono, show ¬ p.total ≤ 1 by omega]
  · have hlt : p.current + 1 < p.total := by omega
    simp [Progression.increment, Progression.peek_next, Progression.up_one,
      Progression.is_mono, show ¬ p.total ≤ 1 by omega, Nat.mod_eq_of_lt hlt]

/-- Witness for the amended reversal claim at `current = 1`, `total = 4`,
forward. -/
theorem reverse_direction_view_flip_witness :
    (Progression.mk 1 4 true).reverse_direction.current = (Progression.mk 1 4 true).current ∧
      (Progression.mk 1 4 true).reverse_direction.total = (Progression.mk 1 4 true).total ∧
      (Progression.mk 1 4 true).reverse_direction.is_forward
        = !(Progression.mk 1 4 true).is_forward ∧
      (Progression.mk 1 4 true).reverse_direction.get_current
        = (Progression.mk 1 4 true).total - 1 - (Progression.mk 1 4 true).current ∧
      (Progression.mk 1 4 true).reverse_direction.increment.current
        = (Progression.mk 1 4 true).increment.current ∧
      (Progression.mk 1 4 true).increment.current = (Progression.mk 1 4 true).current + 1 :=
  reverse_direction_view_flip (Progression.mk 1 4 true) (by decide) (by decide) (by decide)
    (by decide)

/-- Claim C5: `shift_offset` returns `start` unchanged whenever
`frames.total == 0`, for every start value and direction, and otherwise
returns `start` plus the claimed per-direction delta over the full 16-bit
offset range, truncated into the 16-bit range. -/
theorem shift_offset_matches_claim (start : Nat) (frames : Progression)
    (direction : Direction) :
    shift_offset start frames direction = shift_offset_claim start frames direction := by
  cases direction <;>
    simp [shift_offset, shift_offset_claim, MAX_OFFSET, show (65536 : Nat) = 2 ^ 16 by norm_num]

/-- Counterexample to claim C3 as stated: at the seed 42 the source draw
xors the 128-bit product with its shift by 32 bits, which differs from the
claimed shift by half the doubled width (64 bits). -/
theorem gen_u64_shift_differs_from_claim :
    (gen_u64 42).2 ≠ (claim_draw_shift64 42).2 := by
  decide

/-- Claim C3 as amended: one draw adds `WY_CONST_0` to the widened state
with 64-bit wrapping, multiplies the sum with its xor against `WY_CONST_1`
in the 128-bit domain, xors the narrowed product with the narrowed product
shifted right by 32 bits, stores only the sum narrowed back to 32 bits, and
`get_random_offset` keeps the low 16 bits of the output. -/
theorem gen_u64_matches_amended_claim (state : Nat) :
    gen_u64 state = claim_draw_shift32 state ∧
      get_random_offset state = ((gen_u64 state).1, (gen_u64 state).2 % 2 ^ 16) :=
  ⟨rfl, rfl⟩

/-- Casting a byte value through the `as u8` embedding is the identity. -/
theorem rust_cast_u8_coe (n : Nat) (h : n < 256) : rust_cast_u8 (n : Int) = n := by
  unfold rust_cast_u8
  rw [Int.emod_eq_of_lt (by positivity) (by exact_mod_cast h)]
  simp

/-- At `factor = in_min` the per-channel lerp returns the start channel. -/
theorem lerp_channel_at_min (in_min in_max : Int) (s e : Nat) :
    lerp_channel in_min in_min in_max s e = s := by
  unfold lerp_channel
  simp [Int.zero_tdiv]

/-- At `factor = in_max` the per-channel lerp returns the end channel. -/
theorem lerp_channel_at_max (in_min in_max : Int) (h : in_max ≠ in_min) (s e : Nat) :
    lerp_channel in_max in_min in_max s e = e := by
  unfold lerp_channel
  rw [Int.mul_tdiv_cancel_left _ (sub_ne_zero.mpr h)]
  ring

/-- Claim C6: with `in_max != in_min` and byte-valued channels,
`color_lerp` at `factor = in_min` returns the start color exactly and at
`factor = in_max` returns the end color exactly. -/
theorem color_lerp_endpoints (in_min in_max : Int) (start_color end_color : RGBA8)
    (hne : in_max ≠ in_min) (hs : start_color.Valid) (he : end_color.Valid) :
    color_lerp in_min in_min in_max start_color end_color = start_color ∧
      color_lerp in_max in_min in_max start_color end_color = end_color := by
  obtain ⟨hsr, hsg, hsb, hsa⟩ := hs
  obtain ⟨her, heg, heb, hea⟩ := he
  constructor
  · cases start_color with
    | mk r g b a =>
      simp only [color_lerp, lerp_channel_at_min]
      simp [rust_cast_u8_coe, hsr, hsg, hsb, hsa]
  · cases end_color with
    | mk r g b a =>
      simp only [color_lerp, lerp_channel_at_max in_min in_max hne]
      simp [rust_cast_u8_coe, her, heg, heb, hea]

/-- Witness for the lerp-endpoint claim at `in_min = 0`, `in_max = 3` and
two concrete colors. -/
theorem color_lerp_endpoints_witness :
    color_lerp 0 0 3 (RGBA8.mk 1 2 3 4) (RGBA8.mk 10 20 30 40) = RGBA8.mk 1 2 3 4 ∧
      color_lerp 3 0 3 (RGBA8.mk 1 2 3 4) (RGBA8.mk 10 20 30 40) = RGBA8.mk 10 20 30 40 :=
  color_lerp_endpoints 0 3 (RGBA8.mk 1 2 3 4) (RGBA8.mk 10 20 30 40) (by decide)
    (by constructor <;> simp) (by constructor <;> simp)

/-- Multiplying by a fraction `t / d` with `0 <= t <= d` and truncating
keeps an integer between 0 and itself: the scaled value stays between `0`
and `x`. -/
theorem tdiv_scale_between (d t x : Int) (hd : 0 < d) (ht0 : 0 ≤ t) (htd : t ≤ d) :
    min 0 x ≤ (t * x).tdiv d ∧ (t * x).tdiv d ≤ max 0 x := by
  rcases le_or_lt 0 x with hx | hx
  · have h1 : 0 ≤ (t * x).tdiv d := Int.tdiv_nonneg (mul_nonneg ht0 hx) hd.le
    have h2 : (t * x).tdiv d ≤ x := by
      rw [Int.tdiv_eq_ediv (mul_nonneg ht0 hx) hd.le]
      calc t * x / d ≤ d * x / d := Int.ediv_le_ediv hd (by nlinarith)
        _ = x := Int.mul_ediv_cancel_left x (ne_of_gt hd)
    omega
  · have hx' : 0 ≤ -x := by omega
    have key : (t * x).tdiv d = -((t * -x).tdiv d) := by
      rw [← Int.neg_tdiv]
      congr 1
      ring
    have h1 : 0 ≤ (t * -x).tdiv d := Int.tdiv_nonneg (mul_nonneg ht0 hx') hd.le
    have h2 : (t * -x).tdiv d ≤ -x := by
      rw [Int.tdiv_eq_ediv (mul_nonneg ht0 hx') hd.le]
      calc t * -x / d ≤ d * -x / d := Int.ediv_le_ediv hd (by nlinarith)
        _ = -x := Int.mul_ediv_cancel_left _ (ne_of_gt hd)
    omega

/-- For an in-range factor the raw per-channel lerp value lies between the
two channel values. -/
theorem lerp_channel_between (factor in_min in_max : Int) (s e : Nat)
    (h1 : in_min < in_max) (h2 : in_min ≤ factor) (h3 : factor ≤ in_max) :
    min (s : Int) (e : Int) ≤ lerp_channel factor in_min in_max s e ∧
      lerp_channel factor in_min in_max s e ≤ max (s : Int) (e : Int) := by
  have hd : 0 < in_max - in_min := by omega
  have hb := tdiv_scale_between (in_max - in_min) (factor - in_min) ((e : Int) - (s : Int)) hd
    (by omega) (by omega)
  unfold lerp_channel
  omega

/-- For an in-range factor and byte channels, the cast per-channel lerp is a
byte between the two channel values, and the `as u8` cast does not wrap. -/
theorem lerp_byte_between (factor in_min in_max : Int) (s e : Nat)
    (h1 : in_min < in_max) (h2 : in_min ≤ factor) (h3 : factor ≤ in_max)
    (hs : s < 256) (he : e < 256) :
    min s e ≤ rust_cast_u8 (lerp_channel factor in_min in_max s e) ∧
      rust_cast_u8 (lerp_channel factor in_min in_max s e) ≤ max s e ∧
      rust_cast_u8 (lerp_channel factor in_min in_max s e) < 256 := by
  obtain ⟨hlo, hhi⟩ := lerp_channel_between factor in_min in_max s e h1 h2 h3
  have hge : 0 ≤ lerp_channel factor in_min in_max s e := by omega
  have hlt : lerp_channel factor in_min in_max s e < 256 := by omega
  unfold rust_cast_u8
  rw [Int.emod_eq_of_lt hge hlt]
  omega

/-- Claim C9: for `in_min < in_max`, `in_min <= factor <= in_max` and
byte-valued input colors, every channel of the `color_lerp` result lies
between the corresponding channels of the two input colors inclusive, and
the result is a well-formed in-range color (the narrowing cast to 8 bits
never wraps). -/
theorem color_lerp_channels_between (factor in_min in_max : Int)
    (start_color end_color : RGBA8)
    (h1 : in_min < in_max) (h2 : in_min ≤ factor) (h3 : factor ≤ in_max)
    (hs : start_color.Valid) (he : end_color.Valid) :
    (min start_color.r end_color.r ≤ (color_lerp factor in_min in_max start_color end_color).r ∧
        (color_lerp factor in_min in_max start_color end_color).r
          ≤ max start_color.r end_color.r) ∧
      (min start_color.g end_color.g ≤ (color_lerp factor in_min in_max start_color end_color).g ∧
        (color_lerp factor in_min in_max start_color end_color).g
          ≤ max start_color.g end_color.g) ∧
      (min start_color.b end_color.b ≤ (color_lerp factor in_min in_max start_color end_color).b ∧
        (color_lerp factor in_min in_max start_color end_color).b
          ≤ max start_color.b end_color.b) ∧
      (min start_color.a end_color.a ≤ (color_lerp factor in_min in_max start_color end_color).a ∧
        (color_lerp factor in_min in_max start_color end_color).a
          ≤ max start_color.a end_color.a) ∧
      (color_lerp factor in_min in_max start_color end_color).Valid := by
  obtain ⟨hsr, hsg, hsb, hsa⟩ := hs
  obtain ⟨her, heg, heb, hea⟩ := he
  have hr := lerp_byte_between factor in_min in_max start_color.r end_color.r h1 h2 h3 hsr her
  have hg := lerp_byte_between factor in_min in_max start_color.g end_color.g h1 h2 h3 hsg heg
  have hb := lerp_byte_between factor in_min in_max start_color.b end_color.b h1 h2 h3 hsb heb
  have ha := lerp_byte_between factor in_min in_max start_color.a end_color.a h1 h2 h3 hsa hea
  simp only [color_lerp, RGBA8.Valid]
  exact ⟨⟨hr.1, hr.2.1⟩, ⟨hg.1, hg.2.1⟩, ⟨hb.1, hb.2.1⟩, ⟨ha.1, ha.2.1⟩,
    hr.2.2, hg.2.2, hb.2.2, ha.2.2⟩

/-- Witness for the channel-bounds claim at `factor = 1`, `in_min = 0`,
`in_max = 2` and two concrete colors. -/
theorem color_lerp_channels_between_witness :
    (min (RGBA8.mk 0 100 255 10).r (RGBA8.mk 200 50 0 30).r
          ≤ (color_lerp 1 0 2 (RGBA8.mk 0 100 255 10) (RGBA8.mk 200 50 0 30)).r ∧
        (color_lerp 1 0 2 (RGBA8.mk 0 100 255 10) (RGBA8.mk 200 50 0 30)).r
          ≤ max (RGBA8.mk 0 100 255 10).r (RGBA8.mk 200 50 0 30).r) ∧
      (min (RGBA8.mk 0 100 255 10).g (RGBA8.mk 200 50 0 30).g
          ≤ (color_lerp 1 0 2 (RGBA8.mk 0 100 255 10) (RGBA8.mk 200 50 0 30)).g ∧
        (color_lerp 1 0 2 (RGBA8.mk 0 100 255 10) (RGBA8.mk 200 50 0 30)).g
          ≤ max (RGBA8.mk 0 100 255 10).g (RGBA8.mk 200 50 0 30).g) ∧
      (min (RGBA8.mk 0 100 255 10).b (RGBA8.mk 200 50 0 30).b
          ≤ (color_lerp 1 0 2 (RGBA8.mk 0 100 255 10) (RGBA8.mk 200 50 0 30)).b ∧
        (color_lerp 1 0 2 (RGBA8.mk 0 100 255 10) (RGBA8.mk 200 50 0 30)).b
          ≤ max (RGBA8.mk 0 100 255 10).b (RGBA8.mk 200 50 0 30).b) ∧
      (min (RGBA8.mk 0 100 255 10).a (RGBA8.mk 200 50 0 30).a
          ≤ (color_lerp 1 0 2 (RGBA8.mk 0 100 255 10) (RGBA8.mk 200 50 0 30)).a ∧
        (color_lerp 1 0 2 (RGBA8.mk 0 100 255 10) (RGBA8.mk 200 50 0 30)).a
          ≤ max (RGBA8.mk 0 100 255 10).a (RGBA8.mk 200 50 0 30).a) ∧
      (color_lerp 1 0 2 (RGBA8.mk 0 100 255 10) (RGBA8.mk 200 50 0 30)).Valid :=
  color_lerp_channels_between 1 0 2 (RGBA8.mk 0 100 255 10) (RGBA8.mk 200 50 0 30)
    (by decide) (by decide) (by decide) (by constructor <;> simp) (by constructor <;> simp)

/-- Claim C10: `set_color` copies exactly the `r`, `g`, `b` channels of the
source into the target and leaves the target's alpha channel unchanged. -/
theorem set_color_copies_rgb_keeps_alpha (tgt c : RGBA8) :
    (tgt.set_color c).r = c.r ∧ (tgt.set_color c).g = c.g ∧ (tgt.set_color c).b = c.b ∧
      (tgt.set_color c).a = tgt.a :=
  ⟨rfl, rfl, rfl, rfl⟩

/-- Claim C7: the fade computation returns exactly the rainbow's current
color with no blending applied when `frames.total == 0`, and otherwise
returns the blend of the current color toward `peek_next_color()` with
`frames` as the interpolation factor. -/
theorem calculate_fade_color_guard (rainbow : StatefulRainbow) (frames : Progression) :
    (frames.total = 0 → calculate_fade_color rainbow frames = rainbow.current_color) ∧
      (frames.total ≠ 0 →
        calculate_fade_color rainbow frames
          = color_lerp (frames.get_current : Int) 0 (frames.total : Int)
              rainbow.current_color rainbow.peek_next_color) := by
  constructor <;> intro h <;> simp [calculate_fade_color, RGBA8.lerp_with, h]

/-- Witness for the fade-guard claim on a concrete two-color rainbow, once
with a zero-total frame counter and once with `frames = 1 of 2`. -/
theorem calculate_fade_color_guard_witness :
    calculate_fade_color sampleRainbow (Progression.mk 0 0 true) = sampleRainbow.current_color ∧
      calculate_fade_color sampleRainbow (Progression.mk 1 2 true)
        = color_lerp ((Progression.mk 1 2 true).get_current : Int)
            0 ((Progression.mk 1 2 true).total : Int)
            sampleRainbow.current_color sampleRainbow.peek_next_color :=
  ⟨(calculate_fade_color_guard sampleRainbow (Progression.mk 0 0 true)).1 rfl,
    (calculate_fade_color_guard sampleRainbow (Progression.mk 1 2 true)).2 (by decide)⟩

/-- Claim C2: `Animation::update` is exactly the three passes background,
then foreground, then triggers over the shared segment (first conjunct), so
a pixel written by a later pass overwrites what an earlier pass wrote: when
the background pass paints pixel 0 red, the foreground pass paints pixel 0
blue and no trigger touches pixel 0, the updated segment holds blue at
pixel 0; and on an animation whose trigger pass paints pixel 0 green, the
updated segment holds green at pixel 0 regardless of the other two
layers. -/
theorem update_layer_order {β φ τ β2 φ2 τ2 : Type} (a : Animation β φ τ)
    (a2 : Animation β2 φ2 τ2) (red blue green : RGB8)
    (hbg : ∀ seg, ((a.bg_update a.bg_state seg).2)[0]? = some red)
    (hfg : ∀ seg, ((a.fg_update a.fg_state seg).2)[0]? = some blue)
    (htr : ∀ seg, ((a.tr_update a.triggers seg).2)[0]? = seg[0]?)
    (htr2 : ∀ seg, ((a2.tr_update a2.triggers seg).2)[0]? = some green) :
    a.update.segment
        = (a.tr_update a.triggers
            (a.fg_update a.fg_state (a.bg_update a.bg_state a.segment).2).2).2 ∧
      a.update.segment[0]? = some blue ∧
      a2.update.segment[0]? = some green := by
  refine ⟨rfl, ?_, htr2 _⟩
  calc a.update.segment[0]?
      = ((a.tr_update a.triggers
          (a.fg_update a.fg_state (a.bg_update a.bg_state a.segment).2).2).2)[0]? := rfl
    _ = ((a.fg_update a.fg_state (a.bg_update a.bg_state a.segment).2).2)[0]? := htr _
    _ = some blue := hfg _

/-- Witness for the layer-order claim on the concrete one-pixel animations
`animNoTrigger` and `animWithTrigger`, with red, blue and green literal
colors. -/
theorem update_layer_order_witness :
    animNoTrigger.update.segment
        = (animNoTrigger.tr_update animNoTrigger.triggers
            (animNoTrigger.fg_update animNoTrigger.fg_state
              (animNoTrigger.bg_update animNoTrigger.bg_state animNoTrigger.segment).2).2).2 ∧
      animNoTrigger.update.segment[0]? = some (RGB8.mk 0 0 255) ∧
      animWithTrigger.update.segment[0]? = some (RGB8.mk 0 255 0) :=
  update_layer_order animNoTrigger animWithTrigger (RGB8.mk 255 0 0) (RGB8.mk 0 0 255)
    (RGB8.mk 0 255 0) (fun _ => rfl) (fun _ => rfl) (fun _ => rfl) (fun _ => rfl)
